import Mathlib

/-!
Verification development for the SwiftChannel SPSC shared-memory channel.

The definitions below are a shallow embedding of the C++ sources:
  - include/swiftchannel/common/alignment.hpp  (align_up)
  - include/swiftchannel/common/version.hpp    (Version, PROTOCOL_VERSION)
  - include/swiftchannel/common/types.hpp      (MessageHeader, SharedMemoryHeader)
  - include/swiftchannel/common/error.hpp      (ErrorCode)
  - include/swiftchannel/sender/config.hpp     (ChannelConfig)
  - include/swiftchannel/sender/ring_buffer.hpp (RingBuffer::try_write / try_read /
                                                 write_bytes / read_bytes)
  - include/swiftchannel/sender/sender.hpp     (Sender::send_bytes)
  - ipc/handshake.cpp                          (Handshake)
  - sender/channel.cpp                         (Channel::open, header logic)

Machine integers (size_t, uint64_t, uint32_t) are modelled as Nat with explicit
reduction modulo 2^64 / 2^32 at the points where the C++ code truncates or wraps.
The ring storage is modelled as a total function from byte position to byte value;
memcpy of a struct is modelled by little-endian serialization of its fields, which
matches the x86 layout the code static_asserts (MessageHeader is exactly 32 bytes,
fields in declared order, little-endian).
-/

namespace SwiftChannel

set_option maxRecDepth 400000

/-- 2^32, the modulus of a C++ uint32_t. -/
def MOD32 : Nat := 2 ^ 32

/-- 2^64, the modulus of a C++ uint64_t / size_t. -/
def MOD64 : Nat := 2 ^ 64

/-- uint64_t subtraction `a - b` (wrapping), for operands taken modulo 2^64. -/
def u64sub (a b : Nat) : Nat := (a % MOD64 + MOD64 - b % MOD64) % MOD64

/-- `align_up` from alignment.hpp: `(value + alignment - 1) & ~(alignment - 1)`,
computed in size_t arithmetic; `~(alignment - 1)` equals `2^64 - alignment`
for a power-of-two alignment. -/
def align_up (value alignment : Nat) : Nat :=
  ((value + alignment - 1) % MOD64) &&& (MOD64 - alignment)

/-! ### Little-endian byte codec

memcpy between a struct and the byte ring is modelled by the little-endian
serialization of the struct's integer fields, matching the asserted layout
(little-endian, fields in declared order, no padding). -/

/-- Little-endian image of a u32 field. -/
def enc32 (n : Nat) : List Nat :=
  [n % 256, n / 256 % 256, n / 65536 % 256, n / 16777216 % 256]

/-- Little-endian image of a u64 field. -/
def enc64 (n : Nat) : List Nat :=
  [n % 256, n / 256 % 256, n / 65536 % 256, n / 16777216 % 256,
   n / 4294967296 % 256, n / 1099511627776 % 256,
   n / 281474976710656 % 256, n / 72057594037927936 % 256]

/-- Little-endian decoding of a byte list. -/
def decLE : List Nat → Nat
  | [] => 0
  | b :: t => b + 256 * decLE t

/-! ### Ring storage

The ring is a byte store, modelled as a total function from position to byte.
`write_bytes` / `read_bytes` mirror `RingBuffer::write_bytes` / `read_bytes`:
position is `offset & mask_` with `mask_ = size_ - 1`, and a transfer that
crosses the physical end is split into two copies. -/

/-- One contiguous memcpy of `src` into the store at destination `dst`. -/
def memcpy (buf : Nat → Nat) (dst : Nat) (src : List Nat) : Nat → Nat :=
  fun i => if dst ≤ i ∧ i - dst < src.length then src.getD (i - dst) 0 else buf i

/-- `RingBuffer::write_bytes(src, size, offset)` for a ring of `sz` bytes;
`pos = offset & mask_` is written inline. -/
def write_bytes (sz : Nat) (buf : Nat → Nat) (src : List Nat) (off : Nat) : Nat → Nat :=
  if (off &&& (sz - 1)) + src.length ≤ sz then
    memcpy buf (off &&& (sz - 1)) src
  else
    memcpy (memcpy buf (off &&& (sz - 1)) (src.take (sz - (off &&& (sz - 1))))) 0
      (src.drop (sz - (off &&& (sz - 1))))

/-- `RingBuffer::read_bytes(dst, size, offset)` for a ring of `sz` bytes,
returning the bytes that land in the destination buffer. -/
def read_bytes (sz : Nat) (buf : Nat → Nat) (len off : Nat) : List Nat :=
  if (off &&& (sz - 1)) + len ≤ sz then
    (List.range len).map (fun i => buf ((off &&& (sz - 1)) + i))
  else
    ((List.range (sz - (off &&& (sz - 1)))).map (fun i => buf ((off &&& (sz - 1)) + i))) ++
      ((List.range (len - (sz - (off &&& (sz - 1))))).map (fun i => buf i))

/-- Backwards modular distance from ring position `pos` to ring position `i`. -/
def wdist (sz pos i : Nat) : Nat := if pos ≤ i then i - pos else i + sz - pos

/-! ### Message framing (types.hpp, ring_buffer.hpp) -/

/-- `MessageHeader` from types.hpp: u32 magic, u32 size, u64 sequence,
u64 timestamp, u32 checksum, u32 reserved; exactly 32 bytes. -/
structure MessageHeader where
  magic : Nat
  size : Nat
  sequence : Nat
  timestamp : Nat
  checksum : Nat
  reserved : Nat
deriving DecidableEq

/-- `MessageHeader::MAGIC = 0x53574946`. -/
def MessageHeader.MAGIC : Nat := 0x53574946

/-- Byte image of a `MessageHeader` in declared field order, little-endian. -/
def headerBytes (h : MessageHeader) : List Nat :=
  enc32 h.magic ++ enc32 h.size ++ enc64 h.sequence ++
    enc64 h.timestamp ++ enc32 h.checksum ++ enc32 h.reserved

/-- Reconstruction of a `MessageHeader` from its 32-byte image (the memcpy into
a local `MessageHeader` done by `try_read`). -/
def parseHeader (bs : List Nat) : MessageHeader where
  magic := decLE (bs.take 4)
  size := decLE ((bs.drop 4).take 4)
  sequence := decLE ((bs.drop 8).take 8)
  timestamp := decLE ((bs.drop 16).take 8)
  checksum := decLE ((bs.drop 24).take 4)
  reserved := decLE ((bs.drop 28).take 4)

/-! ### Ring buffer operations (ring_buffer.hpp)

The observable channel state is the ring storage together with the two
indices of the `SharedMemoryHeader`; `size` is `RingBuffer::size_`. -/

structure RingState where
  size : Nat
  buf : Nat → Nat
  write_index : Nat
  read_index : Nat

/-- `RingBuffer::try_write(data, data_size, header)`.  `ts` is the value read
from the steady clock (`get_timestamp_ns`), passed explicitly to keep the
function deterministic.  Returns the C++ bool result and the new state. -/
def try_write (st : RingState) (data : List Nat) (ts : Nat) : Bool × RingState :=
  if u64sub st.size (u64sub st.write_index st.read_index) < 32 + align_up data.length 8 then
    (false, st)
  else
    (true,
      { st with
        buf := write_bytes st.size
                 (write_bytes st.size st.buf
                   (headerBytes
                     (MessageHeader.mk MessageHeader.MAGIC (data.length % MOD32)
                       st.write_index ts 0 0))
                   st.write_index)
                 data ((st.write_index + 32) % MOD64)
        write_index := (st.write_index + (32 + align_up data.length 8)) % MOD64 })

/-- Result of `RingBuffer::try_read(data, data_size, header)`: the bool return
value, the in-out `data_size` after the call, the bytes copied into the caller
buffer, and the state after the call. -/
structure ReadOut where
  ok : Bool
  size : Nat
  payload : List Nat
  st : RingState

/-- `RingBuffer::try_read`; `cap` is the caller's incoming `data_size`. -/
def try_read (st : RingState) (cap : Nat) : ReadOut :=
  if st.read_index ≥ st.write_index then
    ReadOut.mk false cap [] st
  else
    if (parseHeader (read_bytes st.size st.buf 32 st.read_index)).magic ≠
        MessageHeader.MAGIC then
      ReadOut.mk false cap [] st
    else
      if (parseHeader (read_bytes st.size st.buf 32 st.read_index)).size > cap then
        ReadOut.mk false (parseHeader (read_bytes st.size st.buf 32 st.read_index)).size [] st
      else
        ReadOut.mk true (parseHeader (read_bytes st.size st.buf 32 st.read_index)).size
          (read_bytes st.size st.buf
            (parseHeader (read_bytes st.size st.buf 32 st.read_index)).size
            ((st.read_index + 32) % MOD64))
          { st with
            read_index :=
              (st.read_index +
                (32 + align_up (parseHeader (read_bytes st.size st.buf 32 st.read_index)).size 8)) %
                MOD64 }

/-! ### Errors, configuration, sender (error.hpp, config.hpp, sender.hpp) -/

/-- `ErrorCode` from error.hpp. -/
inductive ErrorCode where
  | Success
  | ChannelNotFound
  | ChannelAlreadyExists
  | ChannelFull
  | ChannelClosed
  | InvalidChannelName
  | MessageTooLarge
  | InvalidMessage
  | MessageCorrupted
  | ChecksumMismatch
  | OutOfMemory
  | SharedMemoryError
  | MappingFailed
  | InvalidMemoryLayout
  | LockTimeout
  | ConcurrencyViolation
  | SystemError
  | PermissionDenied
  | ResourceBusy
  | InvalidOperation
  | VersionMismatch
  | IncompatibleProtocol
deriving DecidableEq

/-- `ChannelConfig` from config.hpp, with its defaults. -/
structure ChannelConfig where
  ring_buffer_size : Nat := 1048576
  max_message_size : Nat := 65536
  flags : Nat := 0
  timeout_us : Nat := 0
  enable_checksum : Bool := false
  overwrite_on_full : Bool := false
deriving DecidableEq

/-- `ChannelConfig::is_power_of_two`. -/
def is_power_of_two (value : Nat) : Bool :=
  value ≠ 0 && (value &&& (value - 1)) == 0

/-- `ChannelConfig::is_valid`. -/
def ChannelConfig.is_valid (c : ChannelConfig) : Bool :=
  if !is_power_of_two c.ring_buffer_size then false
  else if c.max_message_size ≥ c.ring_buffer_size / 2 then false
  else if c.ring_buffer_size < 4096 || c.max_message_size < 64 then false
  else true

/-- `Sender::send_bytes(data, size)`.  `ready` is `is_ready()`, i.e. the channel
pointer is non-null and open; the ring/header state is `st`.  The error code is
returned as a value (`Result<void>`), never by aborting. -/
def send_bytes (ready : Bool) (cfg : ChannelConfig) (st : RingState)
    (data : List Nat) (ts : Nat) : ErrorCode × RingState :=
  if !ready then
    (ErrorCode.ChannelClosed, st)
  else if data.length > cfg.max_message_size then
    (ErrorCode.MessageTooLarge, st)
  else
    match try_write st data ts with
    | (true, st1) => (ErrorCode.Success, st1)
    | (false, st1) =>
      if cfg.overwrite_on_full then
        (ErrorCode.ChannelFull, st1)
      else
        (ErrorCode.ChannelFull, st1)

/-! ### Version gate (version.hpp) and handshake (handshake.cpp) -/

/-- `Version` from version.hpp: three uint16_t fields. -/
structure Version where
  major : Nat
  minor : Nat
  patch : Nat
deriving DecidableEq

/-- `Version::as_uint32`: `(major << 16) | (minor << 8) | patch`. -/
def Version.as_uint32 (v : Version) : Nat :=
  (v.major <<< 16) ||| (v.minor <<< 8) ||| v.patch

/-- `Version::is_compatible_with`: majors must match. -/
def Version.is_compatible_with (a b : Version) : Bool :=
  a.major == b.major

/-- `PROTOCOL_VERSION = {1, 0, 0}`. -/
def PROTOCOL_VERSION : Version := Version.mk 1 0 0

/-- Unpacking of the header's u32 `version` done in `Handshake::validate_header`. -/
def version_of_uint32 (ver : Nat) : Version :=
  Version.mk ((ver >>> 16) &&& 0xFFFF) ((ver >>> 8) &&& 0xFF) (ver &&& 0xFF)

/-- The attach-time version test of `Handshake::validate_header`, parameterized
by the attaching peer's compiled-in protocol version. -/
def version_gate (peer : Version) (packed : Nat) : Bool :=
  peer.is_compatible_with (version_of_uint32 packed)

/-- `SharedMemoryHeader` from types.hpp.  The 80 reserved bytes are collapsed
into one opaque field; no claim inspects them. -/
structure SharedMemoryHeader where
  magic : Nat
  version : Nat
  ring_buffer_size : Nat
  write_index : Nat
  read_index : Nat
  sender_pid : Nat
  receiver_pid : Nat
  flags : Nat
  reserved : Nat
deriving DecidableEq

/-- `SharedMemoryHeader::MAGIC = 0x53574946`. -/
def SharedMemoryHeader.MAGIC : Nat := 0x53574946

/-- `Handshake::initialize_header` (handshake.cpp): memset to zero, then assign
magic, version, ring size, zero indices, flags and the caller pid.  The null
pointer guard of the C++ entry points is elided (the region is mapped). -/
def init_header (ring_buffer_size flags pid : Nat) : SharedMemoryHeader :=
  SharedMemoryHeader.mk SharedMemoryHeader.MAGIC PROTOCOL_VERSION.as_uint32
    ring_buffer_size 0 0 pid 0 flags 0

/-- `Handshake::validate_header`. -/
def validate_header (hdr : SharedMemoryHeader) : ErrorCode :=
  if hdr.magic ≠ SharedMemoryHeader.MAGIC then
    ErrorCode.InvalidMemoryLayout
  else if !version_gate PROTOCOL_VERSION hdr.version then
    ErrorCode.VersionMismatch
  else if hdr.ring_buffer_size = 0 ||
      (hdr.ring_buffer_size &&& (hdr.ring_buffer_size - 1)) ≠ 0 then
    ErrorCode.InvalidMemoryLayout
  else
    ErrorCode.Success

/-- `Handshake::sender_handshake`: validates only when the region is already
initialized; never mutates the header. -/
def sender_handshake (hdr : SharedMemoryHeader) : ErrorCode :=
  if hdr.magic = SharedMemoryHeader.MAGIC then validate_header hdr
  else ErrorCode.Success

/-- `Handshake::receiver_handshake`: fails with `ChannelNotFound` on an
uninitialized region; on success records the receiver pid. -/
def receiver_handshake (hdr : SharedMemoryHeader) (pid : Nat) :
    ErrorCode × SharedMemoryHeader :=
  if hdr.magic ≠ SharedMemoryHeader.MAGIC then
    (ErrorCode.ChannelNotFound, hdr)
  else if validate_header hdr ≠ ErrorCode.Success then
    (validate_header hdr, hdr)
  else
    (ErrorCode.Success, { hdr with receiver_pid := pid })

/-- The header logic of `Channel::open` (channel.cpp) on an already mapped
region: refuse an invalid configuration, initialize the header when its magic
is not the sentinel (else validate it), then run the sender handshake.
`Receiver::Impl::Impl` (receiver.cpp) attaches through this same function. -/
def channel_open (cfg : ChannelConfig) (hdr : SharedMemoryHeader) (pid : Nat) :
    ErrorCode × SharedMemoryHeader :=
  if !cfg.is_valid then
    (ErrorCode.InvalidOperation, hdr)
  else
    if hdr.magic ≠ SharedMemoryHeader.MAGIC then
      let hdr1 := init_header cfg.ring_buffer_size cfg.flags pid
      if sender_handshake hdr1 ≠ ErrorCode.Success then
        (sender_handshake hdr1, hdr1)
      else
        (ErrorCode.Success, hdr1)
    else
      if validate_header hdr ≠ ErrorCode.Success then
        (validate_header hdr, hdr)
      else if sender_handshake hdr ≠ ErrorCode.Success then
        (sender_handshake hdr, hdr)
      else
        (ErrorCode.Success, hdr)

/-- Repeatedly `send_bytes` the same payload on an open channel (fuel-bounded):
returns the number of consecutive successful sends before the first failure,
and the state reached. -/
def send_run (cfg : ChannelConfig) (data : List Nat) :
    Nat → RingState → Nat × RingState
  | 0, st => (0, st)
  | fuel + 1, st =>
    match send_bytes true cfg st data 0 with
    | (ErrorCode.Success, st1) =>
      let p := send_run cfg data fuel st1
      (p.1 + 1, p.2)
    | (_, st1) => (0, st1)

/-- `Receiver::Impl::poll_one` (receiver.cpp): with an open channel, one
`try_read` into a scratch buffer of `max_message_size` bytes; a successful
read invokes the handler (elided here) and yields `Result<bool>(true)`, i.e.
error code `Success` with value `true`; an unsuccessful read yields
`Result<bool>(false)`.  Returns ((error code, bool value), state after). -/
def poll_one (channel_ok : Bool) (cfg : ChannelConfig) (st : RingState) :
    (ErrorCode × Bool) × RingState :=
  if !channel_ok then
    ((ErrorCode.ChannelNotFound, false), st)
  else if (try_read st cfg.max_message_size).ok then
    ((ErrorCode.Success, true), (try_read st cfg.max_message_size).st)
  else
    ((ErrorCode.Success, false), (try_read st cfg.max_message_size).st)

theorem u64sub_self (a : Nat) : u64sub a a = 0 := by
  unfold u64sub MOD64
  omega

/-- `u64sub` on in-range ordered operands is plain subtraction. -/
theorem u64sub_of_le (a b : Nat) (hb : b ≤ a) (ha : a < MOD64) :
    u64sub a b = a - b := by
  unfold u64sub MOD64 at *
  omega

/-- Clearing the low 3 bits of a 64-bit value rounds it down to a multiple of 8. -/
theorem land_mask8 (x : Nat) (hx : x < 2 ^ 64) :
    x &&& (2 ^ 64 - 8) = x / 8 * 8 := by
  have hmask : (2 : Nat) ^ 64 - 8 = 2 ^ 3 * (2 ^ 61 - 1) := by decide
  have hdiv : x / 8 * 8 = 2 ^ 3 * (x >>> 3) := by
    rw [Nat.shiftRight_eq_div_pow]
    show x / 8 * 8 = 8 * (x / 8)
    omega
  rw [hmask, hdiv]
  apply Nat.eq_of_testBit_eq
  intro i
  rw [Nat.testBit_land, Nat.testBit_mul_pow_two, Nat.testBit_mul_pow_two,
      Nat.testBit_shiftRight, Nat.testBit_two_pow_sub_one]
  have hi3 : 3 + (i - 3) = i ∨ i < 3 := by omega
  by_cases h3 : 3 ≤ i
  · have hi : 3 + (i - 3) = i := by omega
    rw [hi]
    by_cases h64 : i < 64
    · have h61 : i - 3 < 61 := by omega
      simp [h3, h61]
    · have hxi : x.testBit i = false :=
        Nat.testBit_lt_two_pow (Nat.lt_of_lt_of_le hx
          (Nat.pow_le_pow_right (by omega) (by omega)))
      simp [hxi]
  · simp [h3]

/-- For in-range input, `align_up value 8` is rounding up to a multiple of 8. -/
theorem align_up_8 (v : Nat) (h : v + 7 < MOD64) :
    align_up v 8 = (v + 7) / 8 * 8 := by
  unfold align_up MOD64 at *
  have h1 : v + 8 - 1 = v + 7 := by omega
  rw [h1, Nat.mod_eq_of_lt h]
  exact land_mask8 _ h

theorem align_up_8_ge (v : Nat) (h : v + 7 < MOD64) : v ≤ align_up v 8 := by
  rw [align_up_8 v h]
  have := Nat.div_add_mod (v + 7) 8
  have := Nat.mod_lt (v + 7) (y := 8) (by omega)
  omega

theorem align_up_8_le (v : Nat) (h : v + 7 < MOD64) : align_up v 8 ≤ v + 7 := by
  rw [align_up_8 v h]
  have := Nat.div_add_mod (v + 7) 8
  omega

theorem getD_of_lt (l : List Nat) (j : Nat) (h : j < l.length) : l.getD j 0 = l[j] := by
  rw [List.getD_eq_getElem?_getD, List.getElem?_eq_getElem h]
  rfl

theorem getD_take (l : List Nat) (n j : Nat) (h : j < n) :
    (l.take n).getD j 0 = l.getD j 0 := by
  rw [List.getD_eq_getElem?_getD, List.getD_eq_getElem?_getD, List.getElem?_take_of_lt h]

theorem getD_drop (l : List Nat) (n j : Nat) :
    (l.drop n).getD j 0 = l.getD (n + j) 0 := by
  rw [List.getD_eq_getElem?_getD, List.getD_eq_getElem?_getD, List.getElem?_drop]

theorem getD_map_range (f : Nat → Nat) (n j : Nat) (h : j < n) :
    ((List.range n).map f).getD j 0 = f j := by
  rw [List.getD_eq_getElem?_getD, List.getElem?_map]
  rw [List.getElem?_range h]
  rfl

theorem mod_two_cases (a sz : Nat) (h : a < 2 * sz) (h0 : 0 < sz) :
    a % sz = if a < sz then a else a - sz := by
  split_ifs with hlt
  · exact Nat.mod_eq_of_lt hlt
  · rw [Nat.mod_eq_sub_mod (Nat.le_of_not_lt hlt), Nat.mod_eq_of_lt (by omega)]

/-- Pointwise effect of `write_bytes` on a power-of-two ring. -/
theorem write_bytes_apply (k : Nat) (buf : Nat → Nat) (src : List Nat) (off i : Nat)
    (hlen : src.length ≤ 2 ^ k) :
    write_bytes (2 ^ k) buf src off i =
      if i < 2 ^ k ∧ wdist (2 ^ k) (off % 2 ^ k) i < src.length then
        src.getD (wdist (2 ^ k) (off % 2 ^ k) i) 0
      else buf i := by
  have hp : off % 2 ^ k < 2 ^ k := Nat.mod_lt _ (Nat.two_pow_pos k)
  unfold write_bytes memcpy wdist
  rw [Nat.and_pow_two_sub_one_eq_mod]
  set sz := 2 ^ k with hsz
  set pos := off % 2 ^ k with hpos
  by_cases hw : pos + src.length ≤ sz
  · rw [if_pos hw]
    by_cases hpi : pos ≤ i
    · rw [if_pos hpi]
      have hiff : (pos ≤ i ∧ i - pos < src.length) ↔ (i < sz ∧ i - pos < src.length) := by
        omega
      by_cases hc : pos ≤ i ∧ i - pos < src.length
      · rw [if_pos hc, if_pos (hiff.mp hc)]
      · rw [if_neg hc, if_neg (fun h => hc (hiff.mpr h))]
    · rw [if_neg hpi, if_neg (by omega), if_neg (by omega)]
  · rw [if_neg hw]
    have htk : (src.take (sz - pos)).length = sz - pos := by
      rw [List.length_take]; omega
    have hdr : (src.drop (sz - pos)).length = src.length - (sz - pos) := by
      rw [List.length_drop]
    rw [htk, hdr]
    by_cases hpi : pos ≤ i
    · rw [if_pos hpi, if_neg (by omega)]
      by_cases hi : i < sz
      · rw [if_pos (by omega), if_pos (by omega), getD_take _ _ _ (by omega)]
      · rw [if_neg (by omega), if_neg (by omega)]
    · rw [if_neg hpi]
      by_cases hdi : i < src.length - (sz - pos)
      · rw [if_pos (by omega), if_pos (by omega), getD_drop]
        congr 1
        omega
      · rw [if_neg (by omega), if_neg (by omega), if_neg (by omega)]

theorem read_bytes_length (k : Nat) (buf : Nat → Nat) (len off : Nat)
    (h : len ≤ 2 ^ k) : (read_bytes (2 ^ k) buf len off).length = len := by
  have hp : off % 2 ^ k < 2 ^ k := Nat.mod_lt _ (Nat.two_pow_pos k)
  unfold read_bytes
  rw [Nat.and_pow_two_sub_one_eq_mod]
  by_cases h1 : off % 2 ^ k + len ≤ 2 ^ k
  · rw [if_pos h1, List.length_map, List.length_range]
  · rw [if_neg h1, List.length_append, List.length_map, List.length_range,
        List.length_map, List.length_range]
    omega

/-- Pointwise content of `read_bytes` on a power-of-two ring. -/
theorem read_bytes_getD (k : Nat) (buf : Nat → Nat) (len off j : Nat)
    (hj : j < len) (h : len ≤ 2 ^ k) :
    (read_bytes (2 ^ k) buf len off).getD j 0 =
      buf (if off % 2 ^ k + j < 2 ^ k then off % 2 ^ k + j
           else off % 2 ^ k + j - 2 ^ k) := by
  have hp : off % 2 ^ k < 2 ^ k := Nat.mod_lt _ (Nat.two_pow_pos k)
  unfold read_bytes
  rw [Nat.and_pow_two_sub_one_eq_mod]
  set sz := 2 ^ k with hsz
  set pos := off % 2 ^ k with hpos
  by_cases h1 : pos + len ≤ sz
  · rw [if_pos h1, if_pos (by omega)]
    exact getD_map_range _ _ _ hj
  · rw [if_neg h1]
    by_cases h2 : j < sz - pos
    · rw [if_pos (by omega), List.getD_eq_getElem?_getD,
          List.getElem?_append_left (by rw [List.length_map, List.length_range]; omega),
          ← List.getD_eq_getElem?_getD, getD_map_range _ _ _ (by omega)]
    · rw [if_neg (by omega), List.getD_eq_getElem?_getD,
          List.getElem?_append_right (by rw [List.length_map, List.length_range]; omega),
          ← List.getD_eq_getElem?_getD, List.length_map, List.length_range,
          getD_map_range _ _ _ (by omega)]
      congr 1
      omega

/-- Reading back `m ≤ src.length` bytes from the offset just written returns the
first `m` bytes written (the split-copy round-trip, wrap-around included). -/
theorem read_write_same (k : Nat) (buf : Nat → Nat) (src : List Nat) (off m : Nat)
    (hm : m ≤ src.length) (hlen : src.length ≤ 2 ^ k) :
    read_bytes (2 ^ k) (write_bytes (2 ^ k) buf src off) m off = src.take m := by
  have hp : off % 2 ^ k < 2 ^ k := Nat.mod_lt _ (Nat.two_pow_pos k)
  apply List.ext_getElem
  · rw [read_bytes_length _ _ _ _ (by omega), List.length_take]
    omega
  · intro j hj1 hj2
    have hjm : j < m := by
      rw [read_bytes_length _ _ _ _ (by omega)] at hj1
      exact hj1
    rw [← getD_of_lt _ _ hj1, ← getD_of_lt _ _ hj2,
        read_bytes_getD _ _ _ _ _ hjm (by omega),
        write_bytes_apply _ _ _ _ _ hlen, getD_take _ _ _ hjm]
    set pos := off % 2 ^ k with hpos
    by_cases hr : pos + j < 2 ^ k
    · rw [if_pos hr]
      have e1 : wdist (2 ^ k) pos (pos + j) = j := by
        unfold wdist
        rw [if_pos (Nat.le_add_right pos j)]
        omega
      rw [e1, if_pos (And.intro hr (by omega))]
    · rw [if_neg hr]
      have e2 : wdist (2 ^ k) pos (pos + j - 2 ^ k) = j := by
        unfold wdist
        rw [if_neg (by omega)]
        omega
      rw [e2, if_pos (And.intro (by omega) (by omega))]

/-- Reading `m` bytes at `off` is unaffected by a write of `src` at
`(off + m) mod 2^64` when the two regions fit the ring together. -/
theorem read_write_disjoint (k : Nat) (hk : k ≤ 64) (buf : Nat → Nat)
    (src : List Nat) (off m : Nat)
    (hfit : m + src.length ≤ 2 ^ k) :
    read_bytes (2 ^ k) (write_bytes (2 ^ k) buf src ((off + m) % MOD64)) m off =
      read_bytes (2 ^ k) buf m off := by
  have hp : off % 2 ^ k < 2 ^ k := Nat.mod_lt _ (Nat.two_pow_pos k)
  have hdvd : (2 : Nat) ^ k ∣ MOD64 := by
    unfold MOD64
    exact pow_dvd_pow 2 hk
  have hoff2 : ((off + m) % MOD64) % 2 ^ k = (off % 2 ^ k + m) % 2 ^ k := by
    rw [Nat.mod_mod_of_dvd _ hdvd, Nat.mod_add_mod]
  have hcases : (off % 2 ^ k + m) % 2 ^ k =
      if off % 2 ^ k + m < 2 ^ k then off % 2 ^ k + m
      else off % 2 ^ k + m - 2 ^ k :=
    mod_two_cases _ _ (by omega) (Nat.two_pow_pos k)
  apply List.ext_getElem
  · rw [read_bytes_length _ _ _ _ (by omega), read_bytes_length _ _ _ _ (by omega)]
  · intro j hj1 hj2
    have hjm : j < m := by
      rw [read_bytes_length _ _ _ _ (by omega)] at hj1
      exact hj1
    rw [← getD_of_lt _ _ hj1, ← getD_of_lt _ _ hj2,
        read_bytes_getD _ _ _ _ _ hjm (by omega),
        read_bytes_getD _ _ _ _ _ hjm (by omega),
        write_bytes_apply _ _ _ _ _ (by omega)]
    set pos := off % 2 ^ k with hpos
    by_cases hr : pos + j < 2 ^ k
    · rw [if_pos hr, if_neg]
      rw [hoff2, hcases]
      unfold wdist
      split_ifs <;> omega
    · rw [if_neg hr, if_neg]
      rw [hoff2, hcases]
      unfold wdist
      split_ifs <;> omega

theorem headerBytes_length (h : MessageHeader) : (headerBytes h).length = 32 := by
  simp [headerBytes, enc32, enc64]

theorem parse_headerBytes (h : MessageHeader) :
    parseHeader (headerBytes h) =
      MessageHeader.mk (h.magic % MOD32) (h.size % MOD32) (h.sequence % MOD64)
        (h.timestamp % MOD64) (h.checksum % MOD32) (h.reserved % MOD32) := by
  unfold parseHeader headerBytes enc32 enc64 MOD32 MOD64
  simp only [List.cons_append, List.nil_append]
  norm_num [decLE]
  refine ⟨?_, ?_, ?_, ?_, ?_, ?_⟩ <;> omega

/-! ### Write/read round trip -/

theorem u64sub_zero (a : Nat) (h : a < MOD64) : u64sub a 0 = a := by
  unfold u64sub
  rw [Nat.zero_mod, Nat.sub_zero, Nat.mod_eq_of_lt h, Nat.add_mod_right,
      Nat.mod_eq_of_lt h]

/-- A successful `try_write` on an empty channel followed by a `try_read` with
sufficient caller capacity delivers the first `P.length mod 2^32` payload bytes
and reports `P.length mod 2^32` (the header's `size` field is the payload
length cast to uint32_t). -/
theorem roundtrip_aux (k : Nat) (hk : k < 64) (buf : Nat → Nat) (w : Nat)
    (P : List Nat) (ts cap : Nat)
    (hlen7 : P.length + 7 < MOD64)
    (htot : 32 + align_up P.length 8 ≤ 2 ^ k)
    (hwrap : w + (32 + align_up P.length 8) < MOD64)
    (hcap : P.length % MOD32 ≤ cap) :
    (try_write (RingState.mk (2 ^ k) buf w w) P ts).1 = true ∧
    (try_read (try_write (RingState.mk (2 ^ k) buf w w) P ts).2 cap).ok = true ∧
    (try_read (try_write (RingState.mk (2 ^ k) buf w w) P ts).2 cap).size =
      P.length % MOD32 ∧
    (try_read (try_write (RingState.mk (2 ^ k) buf w w) P ts).2 cap).payload =
      P.take (P.length % MOD32) := by
  have h2k : 2 ^ k < MOD64 := by
    unfold MOD64
    exact Nat.pow_lt_pow_right (by norm_num) hk
  have halge : P.length ≤ align_up P.length 8 := align_up_8_ge _ hlen7
  have hguard : ¬(u64sub (2 ^ k) (u64sub w w) < 32 + align_up P.length 8) := by
    rw [u64sub_self, u64sub_zero _ h2k]
    omega
  have e1 : try_write (RingState.mk (2 ^ k) buf w w) P ts =
      (true,
        RingState.mk (2 ^ k)
          (write_bytes (2 ^ k)
            (write_bytes (2 ^ k) buf
              (headerBytes
                (MessageHeader.mk MessageHeader.MAGIC (P.length % MOD32) w ts 0 0))
              w)
            P ((w + 32) % MOD64))
          ((w + (32 + align_up P.length 8)) % MOD64) w) := by
    simp only [try_write]
    rw [if_neg hguard]
  rw [e1]
  have hmagic : MessageHeader.MAGIC % MOD32 = MessageHeader.MAGIC := by decide
  have hsz : P.length % MOD32 % MOD32 = P.length % MOD32 :=
    Nat.mod_mod_of_dvd _ (dvd_refl _)
  have hhb : read_bytes (2 ^ k)
      (write_bytes (2 ^ k)
        (write_bytes (2 ^ k) buf
          (headerBytes
            (MessageHeader.mk MessageHeader.MAGIC (P.length % MOD32) w ts 0 0))
          w)
        P ((w + 32) % MOD64)) 32 w =
      headerBytes (MessageHeader.mk MessageHeader.MAGIC (P.length % MOD32) w ts 0 0) := by
    rw [read_write_disjoint k (Nat.le_of_lt hk) _ P w 32 (by omega),
        read_write_same k _ _ w 32 (by rw [headerBytes_length]) (by rw [headerBytes_length]; omega),
        ← headerBytes_length (MessageHeader.mk MessageHeader.MAGIC (P.length % MOD32) w ts 0 0),
        List.take_length]
  have hparse : parseHeader
      (headerBytes (MessageHeader.mk MessageHeader.MAGIC (P.length % MOD32) w ts 0 0)) =
      MessageHeader.mk MessageHeader.MAGIC (P.length % MOD32) (w % MOD64) (ts % MOD64) 0 0 := by
    rw [parse_headerBytes]
    simp only [hmagic, hsz, Nat.zero_mod]
  have hpayload : read_bytes (2 ^ k)
      (write_bytes (2 ^ k)
        (write_bytes (2 ^ k) buf
          (headerBytes
            (MessageHeader.mk MessageHeader.MAGIC (P.length % MOD32) w ts 0 0))
          w)
        P ((w + 32) % MOD64)) (P.length % MOD32) ((w + 32) % MOD64) =
      P.take (P.length % MOD32) :=
    read_write_same k _ P ((w + 32) % MOD64) (P.length % MOD32)
      (Nat.mod_le _ _) (by omega)
  simp only [try_read]
  rw [Nat.mod_eq_of_lt hwrap]
  rw [if_neg (by omega)]
  rw [hhb, hparse]
  rw [if_neg (by simp)]
  rw [if_neg (by simp; omega)]
  rw [hpayload]
  exact ⟨trivial, rfl, rfl, rfl⟩

/-- C1 (amended): for every payload `P` of length below 2^32 (in particular any
payload within a `max_message_size` under 4 GiB), every power-of-two ring size
with `32 + align_up(P.length, 8) ≤ ring_size`, and every starting
`write_index` `w` (straddling positions included) whose frame does not
overflow the 64-bit index space, a successful `try_write` of `P` on an empty
channel followed by a `try_read` into a buffer of at least `P`'s length
delivers a byte buffer equal to `P` byte-for-byte and reports `P`'s exact
length. -/
theorem C1_roundtrip_exact (k : Nat) (hk : k < 64) (buf : Nat → Nat) (w : Nat)
    (P : List Nat) (ts cap : Nat)
    (hlen32 : P.length < MOD32)
    (htot : 32 + align_up P.length 8 ≤ 2 ^ k)
    (hwrap : w + (32 + align_up P.length 8) < MOD64)
    (hcap : P.length ≤ cap) :
    (try_write (RingState.mk (2 ^ k) buf w w) P ts).1 = true ∧
    (try_read (try_write (RingState.mk (2 ^ k) buf w w) P ts).2 cap).ok = true ∧
    (try_read (try_write (RingState.mk (2 ^ k) buf w w) P ts).2 cap).size = P.length ∧
    (try_read (try_write (RingState.mk (2 ^ k) buf w w) P ts).2 cap).payload = P := by
  have hm : P.length % MOD32 = P.length := Nat.mod_eq_of_lt hlen32
  have hlen7 : P.length + 7 < MOD64 := by
    unfold MOD32 at hlen32
    unfold MOD64
    omega
  have h := roundtrip_aux k hk buf w P ts cap hlen7 htot hwrap (by rw [hm]; exact hcap)
  refine ⟨h.1, h.2.1, ?_, ?_⟩
  · rw [h.2.2.1, hm]
  · rw [h.2.2.2, hm, List.take_length]

/-- C1 witness: an 8-byte payload written at `write_index = 40` in a 64-byte
ring (the frame straddles the physical boundary) round-trips exactly. -/
theorem C1_roundtrip_exact_witness :
    (try_write (RingState.mk (2 ^ 6) (fun _ => 0) 40 40) [1, 2, 3, 4, 5, 6, 7, 8] 0).1
      = true ∧
    (try_read (try_write (RingState.mk (2 ^ 6) (fun _ => 0) 40 40)
      [1, 2, 3, 4, 5, 6, 7, 8] 0).2 8).ok = true ∧
    (try_read (try_write (RingState.mk (2 ^ 6) (fun _ => 0) 40 40)
      [1, 2, 3, 4, 5, 6, 7, 8] 0).2 8).size = ([1, 2, 3, 4, 5, 6, 7, 8] : List Nat).length ∧
    (try_read (try_write (RingState.mk (2 ^ 6) (fun _ => 0) 40 40)
      [1, 2, 3, 4, 5, 6, 7, 8] 0).2 8).payload = [1, 2, 3, 4, 5, 6, 7, 8] :=
  C1_roundtrip_exact 6 (by decide) (fun _ => 0) 40 [1, 2, 3, 4, 5, 6, 7, 8] 0 8
    (by decide) (by decide) (by decide) (by decide)

/-- C1 counterexample: the claim as stated fails for a payload of exactly 2^32
bytes in a 2^34-byte ring: `try_write` succeeds, the caller buffer has the
payload's full length, but `try_read` reports size 0 (the header's `size`
field is the payload length cast to uint32_t), not the payload's length. -/
theorem C1_counterexample :
    (try_write (RingState.mk (2 ^ 34) (fun _ => 0) 0 0)
      (List.replicate (2 ^ 32) 0) 0).1 = true ∧
    (List.replicate (2 ^ 32) (0 : Nat)).length ≤ 2 ^ 32 ∧
    (try_read (try_write (RingState.mk (2 ^ 34) (fun _ => 0) 0 0)
      (List.replicate (2 ^ 32) 0) 0).2 (2 ^ 32)).size ≠
      (List.replicate (2 ^ 32) (0 : Nat)).length := by
  have hlen : (List.replicate (2 ^ 32) (0 : Nat)).length = 2 ^ 32 :=
    List.length_replicate _ _
  have hal : align_up (List.replicate (2 ^ 32) (0 : Nat)).length 8 = 2 ^ 32 := by
    rw [hlen, align_up_8 _ (by unfold MOD64; omega)]
    omega
  have h := roundtrip_aux 34 (by omega) (fun _ => 0) 0 (List.replicate (2 ^ 32) 0) 0
    (2 ^ 32)
    (by rw [hlen]; unfold MOD64; omega)
    (by rw [hal]; omega)
    (by rw [hal]; unfold MOD64; omega)
    (by rw [hlen]; unfold MOD32; omega)
  refine ⟨h.1, by rw [hlen], ?_⟩
  rw [h.2.2.1, hlen]
  unfold MOD32
  omega

/-- C2 (amended): on a ready channel, for a payload within `max_message_size`,
when the free space `ring_size - (write_index - read_index)` (uint64
arithmetic) is smaller than the frame size `32 + align_up(size, 8)`,
`try_write` returns false, `send_bytes` returns `ChannelFull`, and neither the
indices nor any ring byte is modified. -/
theorem C2_full_rejects (cfg : ChannelConfig) (st : RingState) (data : List Nat)
    (ts : Nat)
    (hsize : data.length ≤ cfg.max_message_size)
    (hfull : u64sub st.size (u64sub st.write_index st.read_index) <
      32 + align_up data.length 8) :
    try_write st data ts = (false, st) ∧
    send_bytes true cfg st data ts = (ErrorCode.ChannelFull, st) := by
  have h1 : try_write st data ts = (false, st) := by
    unfold try_write
    rw [if_pos hfull]
  refine ⟨h1, ?_⟩
  unfold send_bytes
  rw [if_neg (by decide), if_neg (by omega), h1]
  by_cases ho : cfg.overwrite_on_full <;> simp [ho]

/-- C2 witness: a 4096-byte ring with 4000 bytes outstanding rejects a
256-byte payload (frame 288 > free 96) with `ChannelFull` and no mutation. -/
theorem C2_full_rejects_witness :
    try_write (RingState.mk 4096 (fun _ => 0) 4000 0) (List.replicate 256 7) 0 =
      (false, RingState.mk 4096 (fun _ => 0) 4000 0) ∧
    send_bytes true (ChannelConfig.mk 4096 1024 0 0 false false)
      (RingState.mk 4096 (fun _ => 0) 4000 0) (List.replicate 256 7) 0 =
      (ErrorCode.ChannelFull, RingState.mk 4096 (fun _ => 0) 4000 0) :=
  C2_full_rejects (ChannelConfig.mk 4096 1024 0 0 false false)
    (RingState.mk 4096 (fun _ => 0) 4000 0) (List.replicate 256 7) 0
    (by decide) (by decide)

/-- C2 counterexample: the claim as stated fails for oversize payloads: with a
valid configuration (ring 4096, max_message_size 64), a state with 96 bytes of
free space, and a 65-byte payload whose frame needs 104 bytes, the free space
is smaller than the frame size, yet `send_bytes` returns `MessageTooLarge`,
not `ChannelFull` (the size check precedes the space check). -/
theorem C2_counterexample :
    u64sub (RingState.mk 4096 (fun _ => 0) 4000 0).size
        (u64sub (RingState.mk 4096 (fun _ => 0) 4000 0).write_index
          (RingState.mk 4096 (fun _ => 0) 4000 0).read_index) <
      32 + align_up (List.replicate 65 (0 : Nat)).length 8 ∧
    (send_bytes true (ChannelConfig.mk 4096 64 0 0 false false)
        (RingState.mk 4096 (fun _ => 0) 4000 0) (List.replicate 65 0) 0).1 =
      ErrorCode.MessageTooLarge := by
  constructor
  · decide
  · decide

/-- C3: when the channel is non-empty, the oldest frame has a valid magic, and
the caller's buffer capacity is smaller than the frame's payload size,
`try_read` fails, writes the required payload size into the in-out size
parameter, copies nothing, and leaves the whole state (read_index, all other
fields and every ring byte) unchanged. -/
theorem C3_too_small (st : RingState) (cap : Nat)
    (hne : st.read_index < st.write_index)
    (hmagic : (parseHeader (read_bytes st.size st.buf 32 st.read_index)).magic =
      MessageHeader.MAGIC)
    (hcap : cap < (parseHeader (read_bytes st.size st.buf 32 st.read_index)).size) :
    try_read st cap =
      ReadOut.mk false (parseHeader (read_bytes st.size st.buf 32 st.read_index)).size
        [] st := by
  unfold try_read
  rw [if_neg (by omega), if_neg (by simp [hmagic]), if_pos (by omega)]

/-- C3 witness: after writing an 8-byte frame into an empty 64-byte ring, a
read with a 4-byte caller buffer fails, reports required size 8, and leaves
the state untouched. -/
theorem C3_too_small_witness :
    try_read (try_write (RingState.mk 64 (fun _ => 0) 0 0) [1, 2, 3, 4, 5, 6, 7, 8] 0).2
        4 =
      ReadOut.mk false
        (parseHeader
          (read_bytes
            (try_write (RingState.mk 64 (fun _ => 0) 0 0) [1, 2, 3, 4, 5, 6, 7, 8] 0).2.size
            (try_write (RingState.mk 64 (fun _ => 0) 0 0) [1, 2, 3, 4, 5, 6, 7, 8] 0).2.buf
            32
            (try_write (RingState.mk 64 (fun _ => 0) 0 0) [1, 2, 3, 4, 5, 6, 7, 8] 0).2.read_index)).size
        [] (try_write (RingState.mk 64 (fun _ => 0) 0 0) [1, 2, 3, 4, 5, 6, 7, 8] 0).2 :=
  C3_too_small (try_write (RingState.mk 64 (fun _ => 0) 0 0) [1, 2, 3, 4, 5, 6, 7, 8] 0).2
    4 (by decide) (by decide) (by decide)

/-- C4: on a freshly initialized 4096-byte channel with `max_message_size`
1024, repeatedly sending 256-byte payloads succeeds exactly 14 times (each
frame is 288 bytes, 14 x 288 = 4032), and the 15th send returns
`ChannelFull`. -/
theorem C4_fourteen_sends :
    (send_run (ChannelConfig.mk 4096 1024 0 0 false false) (List.replicate 256 7) 15
      (RingState.mk 4096 (fun _ => 0) 0 0)).1 = 14 ∧
    (send_bytes true (ChannelConfig.mk 4096 1024 0 0 false false)
      (send_run (ChannelConfig.mk 4096 1024 0 0 false false) (List.replicate 256 7) 14
        (RingState.mk 4096 (fun _ => 0) 0 0)).2
      (List.replicate 256 7) 0).1 = ErrorCode.ChannelFull := by
  constructor
  · decide
  · decide

/-- C5 (amended): every configuration accepted by `ChannelConfig::is_valid`
satisfies `max_message_size < ring_size / 2`; the validator does not reserve
room for the 32-byte `MessageHeader` on top of `max_message_size`. -/
theorem C5_half_ring (cfg : ChannelConfig) (h : cfg.is_valid = true) :
    cfg.max_message_size < cfg.ring_buffer_size / 2 := by
  unfold ChannelConfig.is_valid at h
  split_ifs at h with h1 h2 h3
  omega

/-- C5 witness: the default-shaped configuration (ring 4096, max 1024) is
accepted and satisfies the bound. -/
theorem C5_half_ring_witness :
    (ChannelConfig.mk 4096 1024 0 0 false false).is_valid = true ∧
    (ChannelConfig.mk 4096 1024 0 0 false false).max_message_size <
      (ChannelConfig.mk 4096 1024 0 0 false false).ring_buffer_size / 2 :=
  And.intro (by decide)
    (C5_half_ring (ChannelConfig.mk 4096 1024 0 0 false false) (by decide))

/-- C5 counterexample: the configuration (ring 4096, max 2047) is accepted by
`is_valid`, but `max_message_size + sizeof(MessageHeader) = 2079` exceeds
`ring_size / 2 = 2048`, refuting the claim as stated. -/
theorem C5_counterexample :
    (ChannelConfig.mk 4096 2047 0 0 false false).is_valid = true ∧
    ¬((ChannelConfig.mk 4096 2047 0 0 false false).max_message_size + 32 ≤
      (ChannelConfig.mk 4096 2047 0 0 false false).ring_buffer_size / 2) := by
  constructor
  · decide
  · decide

theorem version_pack_unpack (M m p : Nat) (hM : M < 65536) (hm : m < 256)
    (hp : p < 256) :
    version_of_uint32 (Version.mk M m p).as_uint32 = Version.mk M m p := by
  have hpack : (Version.mk M m p).as_uint32 = M * 65536 + m * 256 + p := by
    show (M <<< 16) ||| (m <<< 8) ||| p = M * 65536 + m * 256 + p
    rw [Nat.shiftLeft_eq, Nat.shiftLeft_eq]
    have h1 : M * 2 ^ 16 ||| m * 2 ^ 8 = M * 2 ^ 16 + m * 2 ^ 8 := by
      rw [Nat.mul_comm M (2 ^ 16)]
      exact (Nat.mul_add_lt_is_or (by omega) M).symm
    rw [h1]
    have h2 : M * 2 ^ 16 + m * 2 ^ 8 = 2 ^ 8 * (M * 2 ^ 8 + m) := by ring
    rw [h2, ← Nat.mul_add_lt_is_or (show p < 2 ^ 8 by omega) (M * 2 ^ 8 + m)]
    norm_num
    omega
  unfold version_of_uint32
  rw [hpack]
  have e16 : (2 : Nat) ^ 16 = 65536 := by norm_num
  have e8 : (2 : Nat) ^ 8 = 256 := by norm_num
  congr 1
  · rw [Nat.shiftRight_eq_div_pow, e16,
        show (M * 65536 + m * 256 + p) / 65536 = M by omega,
        show (0xFFFF : Nat) = 2 ^ 16 - 1 by norm_num,
        Nat.and_pow_two_sub_one_eq_mod, e16]
    omega
  · rw [Nat.shiftRight_eq_div_pow, e8,
        show (M * 65536 + m * 256 + p) / 256 = M * 256 + m by omega,
        show (0xFF : Nat) = 2 ^ 8 - 1 by norm_num,
        Nat.and_pow_two_sub_one_eq_mod, e8]
    omega
  · rw [show (0xFF : Nat) = 2 ^ 8 - 1 by norm_num,
        Nat.and_pow_two_sub_one_eq_mod, e8]
    omega

/-- C6 (amended): with 8-bit minor and patch values (what the 8/8 packing of
the low 16 bits can represent), a region packed from `(1, m1, p1)` passes the
attach-time version check of a peer at protocol version `(1, m2, p2)`, and a
region packed from a version whose major differs from the peer's major fails
the check (surfacing `VersionMismatch` in `validate_header`). -/
theorem C6_version_compat :
    (∀ m1 p1 m2 p2 : Nat, m1 < 256 → p1 < 256 →
      version_gate (Version.mk 1 m2 p2) (Version.mk 1 m1 p1).as_uint32 = true) ∧
    (∀ M1 M2 m p m2 p2 : Nat, M1 < 65536 → m < 256 → p < 256 → M1 ≠ M2 →
      version_gate (Version.mk M2 m2 p2) (Version.mk M1 m p).as_uint32 = false) := by
  constructor
  · intro m1 p1 m2 p2 hm hp
    unfold version_gate
    rw [version_pack_unpack 1 m1 p1 (by omega) hm hp]
    rfl
  · intro M1 M2 m p m2 p2 hM hm hp hne
    unfold version_gate
    rw [version_pack_unpack M1 m p hM hm hp]
    unfold Version.is_compatible_with
    cases hbe : (Version.mk M2 m2 p2).major == (Version.mk M1 m p).major with
    | false => rfl
    | true => exact absurd (eq_of_beq hbe).symm hne

/-- C6 witness: a `(1, 5, 9)` region is accepted by a `(1, 3, 4)` peer, and a
`(2, 5, 9)` region is rejected by it. -/
theorem C6_version_compat_witness :
    version_gate (Version.mk 1 3 4) (Version.mk 1 5 9).as_uint32 = true ∧
    version_gate (Version.mk 1 3 4) (Version.mk 2 5 9).as_uint32 = false :=
  And.intro
    (C6_version_compat.1 5 9 3 4 (by decide) (by decide))
    (C6_version_compat.2 2 1 5 9 3 4 (by decide) (by decide) (by decide) (by decide))

/-- C6 counterexample: the claim quantifies over all 16-bit minor values, but
minor 512 (a 16-bit value) already fails: `(minor << 8)` overlaps the major
bits, so a region packed from `(1, 512, 0)` unpacks with major 3 and is
rejected by a peer at `(1, 0, 0)` with `VersionMismatch`. -/
theorem C6_counterexample :
    (512 : Nat) < 65536 ∧
    version_gate PROTOCOL_VERSION (Version.mk 1 512 0).as_uint32 = false ∧
    validate_header
      (SharedMemoryHeader.mk SharedMemoryHeader.MAGIC (Version.mk 1 512 0).as_uint32
        4096 0 0 0 0 0 0) = ErrorCode.VersionMismatch := by
  refine ⟨by decide, by decide, by decide⟩

/-- C7: on a freshly zeroed region (magic 0), `Handshake::receiver_handshake`
does fail with `ChannelNotFound` and leaves the header untouched — but the
receiver (`Receiver::Impl::Impl`) never calls it: it attaches through
`Channel::open`, which initializes the zeroed region (writing the magic) and
succeeds.  This theorem evaluates both paths at the failing input. -/
theorem C7_receiver_attach_divergence :
    receiver_handshake (SharedMemoryHeader.mk 0 0 0 0 0 0 0 0 0) 77 =
      (ErrorCode.ChannelNotFound, SharedMemoryHeader.mk 0 0 0 0 0 0 0 0 0) ∧
    (channel_open (ChannelConfig.mk 4096 1024 0 0 false false)
      (SharedMemoryHeader.mk 0 0 0 0 0 0 0 0 0) 77).1 = ErrorCode.Success ∧
    (channel_open (ChannelConfig.mk 4096 1024 0 0 false false)
      (SharedMemoryHeader.mk 0 0 0 0 0 0 0 0 0) 77).2.magic =
      SharedMemoryHeader.MAGIC := by
  refine ⟨by decide, by decide, by decide⟩

/-- C8 (amended): when the channel is non-empty and the oldest frame's header
magic differs from the sentinel, `try_read` fails returning `false` (the
receiver reports "no message"; no `MessageCorrupted` code is surfaced), the
in-out size and the whole state — `read_index` included — are unchanged, and
any number of subsequent reads fail the same way, leaving the state fixed. -/
theorem C8_corrupt_no_advance (st : RingState) (cap n : Nat)
    (hne : st.read_index < st.write_index)
    (hmagic : (parseHeader (read_bytes st.size st.buf 32 st.read_index)).magic ≠
      MessageHeader.MAGIC) :
    try_read st cap = ReadOut.mk false cap [] st ∧
    (fun s => (try_read s cap).st)^[n] st = st := by
  have h1 : try_read st cap = ReadOut.mk false cap [] st := by
    unfold try_read
    rw [if_neg (by omega), if_pos hmagic]
  refine ⟨h1, ?_⟩
  induction n with
  | zero => rfl
  | succ n ih =>
    rw [Function.iterate_succ_apply]
    show (fun s => (try_read s cap).st)^[n] ((try_read st cap).st) = st
    rw [h1]
    exact ih

/-- C8 witness: a zeroed 4096-byte ring claiming 288 unread bytes has frame
magic 0 at the read position; reads fail with no advance, three times over. -/
theorem C8_corrupt_no_advance_witness :
    try_read (RingState.mk 4096 (fun _ => 0) 288 0) 1024 =
      ReadOut.mk false 1024 [] (RingState.mk 4096 (fun _ => 0) 288 0) ∧
    (fun s => (try_read s 1024).st)^[3] (RingState.mk 4096 (fun _ => 0) 288 0) =
      RingState.mk 4096 (fun _ => 0) 288 0 :=
  C8_corrupt_no_advance (RingState.mk 4096 (fun _ => 0) 288 0) 1024 3
    (by decide) (by decide)

/-- C8 counterexample: at a non-empty state whose oldest frame magic is 0 (not
the sentinel), the receiver's `poll_one` does not surface `MessageCorrupted`:
it returns `Success` with value `false` ("no message"). -/
theorem C8_counterexample :
    (RingState.mk 4096 (fun _ => 0) 288 0).read_index <
      (RingState.mk 4096 (fun _ => 0) 288 0).write_index ∧
    (parseHeader
      (read_bytes (RingState.mk 4096 (fun _ => 0) 288 0).size
        (RingState.mk 4096 (fun _ => 0) 288 0).buf 32
        (RingState.mk 4096 (fun _ => 0) 288 0).read_index)).magic ≠
      MessageHeader.MAGIC ∧
    (poll_one true (ChannelConfig.mk 4096 1024 0 0 false false)
      (RingState.mk 4096 (fun _ => 0) 288 0)).1 ≠
      (ErrorCode.MessageCorrupted, false) ∧
    (poll_one true (ChannelConfig.mk 4096 1024 0 0 false false)
      (RingState.mk 4096 (fun _ => 0) 288 0)).1 = (ErrorCode.Success, false) := by
  refine ⟨by decide, by decide, by decide, by decide⟩

theorem is_valid_pow2 (cfg : ChannelConfig) (hv : cfg.is_valid = true) :
    cfg.ring_buffer_size ≠ 0 ∧
    (cfg.ring_buffer_size &&& (cfg.ring_buffer_size - 1)) = 0 := by
  unfold ChannelConfig.is_valid at hv
  split_ifs at hv with h1 h2 h3
  have hpt : is_power_of_two cfg.ring_buffer_size = true := by
    cases hb : is_power_of_two cfg.ring_buffer_size
    · rw [hb] at h1
      simp at h1
    · rfl
  unfold is_power_of_two at hpt
  simp only [Bool.and_eq_true, decide_eq_true_eq, beq_iff_eq] at hpt
  exact hpt

/-- On a valid configuration and a zero-magic (freshly mapped) region,
`Channel::open` takes the initialization path and succeeds, leaving the
header initialized by `init_header`. -/
theorem channel_open_fresh (cfg : ChannelConfig) (hdr : SharedMemoryHeader)
    (pid : Nat) (hv : cfg.is_valid = true) (hm : hdr.magic = 0) :
    channel_open cfg hdr pid =
      (ErrorCode.Success, init_header cfg.ring_buffer_size cfg.flags pid) := by
  have hpow := is_valid_pow2 cfg hv
  have hgate : version_gate PROTOCOL_VERSION PROTOCOL_VERSION.as_uint32 = true := by
    decide
  have hval : validate_header (init_header cfg.ring_buffer_size cfg.flags pid) =
      ErrorCode.Success := by
    unfold validate_header init_header
    rw [if_neg (by simp)]
    rw [if_neg (by simp [hgate])]
    rw [if_neg (by simp [hpow.1, hpow.2])]
  have hsend : sender_handshake (init_header cfg.ring_buffer_size cfg.flags pid) =
      ErrorCode.Success := by
    unfold sender_handshake
    rw [if_pos (by simp [init_header]), hval]
  unfold channel_open
  rw [hv]
  rw [if_neg (by decide), hm, if_pos (by decide)]
  simp [hsend]

/-- C9 (amended): attach does not inspect `flags` at all: for every flags
value (reserved bits included) and every zero-magic region, `Channel::open`
with otherwise-valid sizes (ring 4096, max 1024) succeeds rather than
refusing. -/
theorem C9_flags_ignored (f pid vr rs wi ri sp rp fl rv : Nat) :
    (channel_open (ChannelConfig.mk 4096 1024 f 0 false false)
      (SharedMemoryHeader.mk 0 vr rs wi ri sp rp fl rv) pid).1 =
      ErrorCode.Success := by
  rw [channel_open_fresh (ChannelConfig.mk 4096 1024 f 0 false false)
    (SharedMemoryHeader.mk 0 vr rs wi ri sp rp fl rv) pid
    (by exact (by decide : (ChannelConfig.mk 4096 1024 0 0 false false).is_valid = true))
    rfl]

/-- C9 counterexample: a configuration with reserved flag bit 4 set is not
refused: attach on a fresh region succeeds. -/
theorem C9_counterexample :
    (ChannelConfig.mk 4096 1024 16 0 false false).flags &&& (2 ^ 4) ≠ 0 ∧
    (channel_open (ChannelConfig.mk 4096 1024 16 0 false false)
      (SharedMemoryHeader.mk 0 0 0 0 0 0 0 0 0) 7).1 = ErrorCode.Success := by
  refine ⟨by decide, by decide⟩

/-- C10: for a `Sender` whose channel failed to open or is closed
(`is_ready()` false), `send_bytes` of any payload in any configuration and
any shared state returns `ChannelClosed` as a reported `Result` value (no
abort is modelled: the function is total) and leaves the state untouched. -/
theorem C10_closed_send (cfg : ChannelConfig) (st : RingState) (data : List Nat)
    (ts : Nat) :
    send_bytes false cfg st data ts = (ErrorCode.ChannelClosed, st) := by
  simp [send_bytes]

end SwiftChannel
